import Mathlib

/-!
Verification of the redis-tools load generator (redis-load.c, rc4rand.c,
redis-stat.c and the accompanying hiredis-style synchronous client) against
its natural-language specification.

The development shallowly embeds the relevant C functions as pure Lean
functions.  Machine integers are modelled as `Nat`/`Int` with explicit
`% 2 ^ w` where truncation matters; the global mutable state of the C
program (the RC4 sbox, the libc PRNG, the client pool counters) is passed
explicitly.  Byte buffers are `List Nat` of byte values.
-/

set_option maxRecDepth 16000

/-! ## Keystream (rc4rand.c)

State of the generator: the 256-byte permutation `rc4_sbox` (modelled as a
total function on `Fin 256`, exactly the C array) and the two indices
`rc4_i`, `rc4_j`. -/

/-- The 256 bytes of the string literal that `rc4rand_seed` copies over the
sbox (rc4rand.c line 19). -/
def rc4_sbox_init : List Nat :=
  [60, 106, 36, 59, 126, 49, 43, 75, 96, 114, 112, 95, 111, 101, 84, 67,
   65, 71, 74, 81, 98, 101, 106, 55, 96, 53, 79, 62, 115, 108, 47, 89,
   47, 83, 69, 103, 58, 123, 54, 119, 106, 49, 126, 108, 44, 81, 47, 54,
   69, 97, 104, 44, 89, 109, 104, 37, 68, 63, 39, 37, 68, 79, 83, 43,
   69, 100, 87, 41, 79, 93, 40, 108, 99, 57, 36, 87, 119, 104, 42, 109,
   35, 65, 103, 115, 106, 87, 120, 88, 42, 96, 72, 88, 116, 63, 111, 45,
   88, 116, 94, 35, 43, 38, 69, 98, 60, 46, 99, 76, 71, 101, 96, 124,
   46, 125, 58, 99, 79, 68, 77, 48, 80, 116, 42, 50, 124, 76, 84, 36,
   121, 110, 54, 118, 63, 62, 45, 51, 58, 70, 112, 116, 93, 40, 95, 121,
   117, 111, 39, 61, 103, 60, 106, 93, 52, 116, 42, 100, 116, 113, 95, 90,
   48, 55, 85, 97, 67, 46, 49, 112, 112, 108, 87, 116, 120, 114, 118, 116,
   76, 68, 111, 52, 51, 55, 106, 116, 45, 122, 113, 118, 66, 98, 123, 95,
   47, 44, 44, 41, 108, 121, 62, 42, 82, 93, 114, 48, 97, 105, 122, 74,
   41, 121, 66, 98, 80, 61, 98, 53, 59, 119, 51, 64, 56, 116, 71, 107,
   75, 51, 76, 71, 102, 48, 62, 59, 48, 99, 108, 63, 107, 47, 74, 89,
   116, 98, 109, 86, 78, 72, 70, 77, 93, 82, 108, 82, 51, 61, 77, 82]

/-- Index into a 256-entry array; the C code always masks with `& 0xff`
or stays inside the loop bound, so the index is reduced mod 256. -/
def idx (x : Nat) : Fin 256 := ⟨x % 256, Nat.mod_lt _ (by omega)⟩

/-- The sbox literal as a function on indices (the `memcpy` target). -/
def rc4_sbox_initF : Fin 256 → Nat := fun k => rc4_sbox_init.getD k 0

/-- Byte `k % 8` of the 64-bit seed, little-endian, as produced by reading
`(unsigned char *) &seed` on the little-endian platforms the Makefile
targets; `% 2 ^ 64` models the truncation to `unsigned long`. -/
def seedByte (seed k : Nat) : Nat := ((seed % 2 ^ 64) >>> (8 * (k % 8))) % 256

/-- Generator state: `rc4_sbox`, `rc4_i`, `rc4_j` (rc4rand.c lines 9-10). -/
structure RC4State where
  sbox : Fin 256 → Nat
  i : Nat
  j : Nat

/-- The seeding loop `for (i = 0; i < 256; i++) rc4_sbox[i] ^= s[i % 8]`
(rc4rand.c lines 20-21).  The first argument counts the remaining
iterations (the loop runs exactly `256 - i` more times). -/
def seedXorFrom (seed : Nat) : Nat → (Fin 256 → Nat) → Nat → (Fin 256 → Nat)
  | 0, S, _ => S
  | n + 1, S, i =>
      seedXorFrom seed n (Function.update S (idx i) (S (idx i) ^^^ seedByte seed i)) (i + 1)

/-- `rc4rand_seed` (rc4rand.c lines 15-23): `memcpy` the fixed literal over
the sbox, XOR the seed bytes in, reset `rc4_i = rc4_j = 0`.  The previous
generator state is an argument (it is the global being overwritten) but the
result does not depend on it. -/
def rc4rand_seed (seed : Nat) (_st : RC4State) : RC4State :=
  { sbox := seedXorFrom seed 256 rc4_sbox_initF 0, i := 0, j := 0 }

/-- One iteration of the loop body of `rc4rand_set` (rc4rand.c lines 32-40):
the PRGA step, returning the new state and the emitted byte. -/
def rc4Step (st : RC4State) : RC4State × Nat :=
  let i := (st.i + 1) % 256
  let si := st.sbox (idx i)
  let j := (st.j + si) % 256
  let sj := st.sbox (idx j)
  let S := Function.update (Function.update st.sbox (idx i) sj) (idx j) si
  ({ sbox := S, i := i, j := j }, S (idx (si + sj)))

/-- `rc4rand_set(dest, len)` (rc4rand.c lines 26-43): emit `len` keystream
bytes, updating the generator state. -/
def rc4rand_set : RC4State → Nat → RC4State × List Nat
  | st, 0 => (st, [])
  | st, n + 1 =>
      let sb := rc4Step st
      let rest := rc4rand_set sb.1 n
      (rest.1, sb.2 :: rest.2)

/-- Assemble a list of bytes into the `unsigned long` they occupy in memory
on a little-endian machine (first byte least significant). -/
def littleEndianVal : List Nat → Nat
  | [] => 0
  | b :: bs => b + 256 * littleEndianVal bs

/-- `rc4rand()` (rc4rand.c lines 46-51): fill the 8 bytes of an
`unsigned long` from the keystream. -/
def rc4rand (st : RC4State) : RC4State × Nat :=
  let r := rc4rand_set st 8
  (r.1, littleEndianVal r.2)

/-- `rc4rand_between(min, max)` (rc4rand.c lines 53-55):
`min + rc4rand() % (max - min + 1)`.  Faithful to the C arithmetic for
`min ≤ max` (the configuration sanitizer keeps both in `[1, 2 ^ 20]`). -/
def rc4rand_between (st : RC4State) (mn mx : Nat) : RC4State × Nat :=
  let r := rc4rand st
  (r.1, mn + r.2 % (mx - mn + 1))

/-! ## Payload generation (redis-load.c, hiredis-based version)

`randomData` (lines 235-256) draws the payload length and bytes.  Besides
the keystream it can consult the libc PRNG `random()` (via `randbetween`,
lines 112-114), which is global state seeded once with `srandom`; we model
that PRNG as an arbitrary stream of draws plus a cursor. -/

/-- The program state that payload generation can read or write: the
global RC4 generator and the libc PRNG (a stream of draw values and the
position of the next draw). -/
structure ProgState where
  rc4 : RC4State
  randseq : Nat → Nat
  randpos : Nat

/-- One call of libc `random()`: the next value of the stream, reduced to
the `[0, 2^31)` range `random` guarantees. -/
def randomCall (s : ProgState) : ProgState × Nat :=
  ({ s with randpos := s.randpos + 1 }, s.randseq s.randpos % 2 ^ 31)

/-- `randbetween(min, max)` (redis-load.c lines 112-114):
`min + random() % (max - min + 1)`. -/
def randbetween (s : ProgState) (mn mx : Nat) : ProgState × Nat :=
  let r := randomCall s
  (r.1, mn + r.2 % (mx - mn + 1))

/-- `randomData(seed)` (redis-load.c lines 235-256), returning the updated
program state together with `(datalen, databuf contents)`.  `check` and
`rand` are the configuration flags, `mn`/`mx` the configured
`datasize_min`/`datasize_max`; the byte 120 is `'x'`. -/
def randomData (s : ProgState) (check rand : Bool) (keyid mn mx : Nat) :
    ProgState × Nat × List Nat :=
  if check then
    let st1 := rc4rand_seed keyid s.rc4
    let r2 := rc4rand_between st1 mn mx
    let r3 := rc4rand_set r2.1 r2.2
    ({ s with rc4 := r3.1 }, r2.2, r3.2)
  else
    let r1 := randbetween s mn mx
    if rand then
      let st2 := rc4rand_seed keyid r1.1.rc4
      let r3 := rc4rand_set st2 r1.2
      ({ r1.1 with rc4 := r3.1 }, r1.2, r3.2)
    else
      (r1.1, r1.2, List.replicate r1.2 120)

/-! Request-type and reply-type constants used by the integrity check. -/

def REDIS_GET : Nat := 1
def REDIS_SET : Nat := 2
def REDIS_DEL : Nat := 3
def REDIS_SWAPIN : Nat := 4
def REDIS_LPUSH : Nat := 6
def REDIS_LPOP : Nat := 7
def REDIS_HSET : Nat := 8
def REDIS_HGET : Nat := 9
def REDIS_HGETALL : Nat := 10

/-- Reply-object type tags of the bundled synchronous client
(`REDIS_REPLY_*`, as defined in the stat utility sources). -/
def REDIS_REPLY_ERROR : Nat := 0
def REDIS_REPLY_STRING : Nat := 1
def REDIS_REPLY_ARRAY : Nat := 2
def REDIS_REPLY_INTEGER : Nat := 3
def REDIS_REPLY_NIL : Nat := 4

/-- `checkDataIntegrity` (redis-load.c lines 174-197): on a GET whose reply
is a bulk string, reseed the keystream from the key id, regenerate the
expected `(datalen, data)` and compare with the reply; `memcmp` compares
the first `datalen` bytes.  Returns `(passes, new RC4 state)`; a `false`
first component is the fatal `exit(1)` path. -/
def checkDataIntegrity (st : RC4State) (reqtype replyType : Nat)
    (keyid mn mx : Nat) (reply_len : Nat) (reply_str : List Nat) :
    Bool × RC4State :=
  if reqtype = REDIS_GET ∧ replyType = REDIS_REPLY_STRING then
    let st1 := rc4rand_seed keyid st
    let r2 := rc4rand_between st1 mn mx
    let r3 := rc4rand_set r2.1 r2.2
    if reply_len ≠ r2.2 then (false, r3.1)
    else if reply_str.take r2.2 ≠ r3.2 then (false, r3.1)
    else (true, r3.1)
  else (true, st)

/-- The keystream emits exactly as many bytes as requested. -/
theorem rc4rand_set_length (st : RC4State) (n : Nat) :
    (rc4rand_set st n).2.length = n := by
  induction n generalizing st with
  | zero => rfl
  | succ n ih => simp [rc4rand_set, ih]

/-- A convenient concrete generator state (the sbox literal, untouched). -/
def rc4Init : RC4State := { sbox := rc4_sbox_initF, i := 0, j := 0 }

/-- `rc4rand_seed` rebuilds the whole generator state from the seed alone:
the overwritten previous state is irrelevant. -/
theorem rc4rand_seed_const (seed : Nat) (st st' : RC4State) :
    rc4rand_seed seed st = rc4rand_seed seed st' := rfl

/-- Unfolding equation for the `check = true` branch of `randomData`. -/
theorem randomData_check_eq (σ : ProgState) (rand : Bool) (k mn mx : Nat) :
    randomData σ true rand k mn mx =
      ({ σ with rc4 := (rc4rand_set (rc4rand_between (rc4rand_seed k σ.rc4) mn mx).1
           (rc4rand_between (rc4rand_seed k σ.rc4) mn mx).2).1 },
       (rc4rand_between (rc4rand_seed k σ.rc4) mn mx).2,
       (rc4rand_set (rc4rand_between (rc4rand_seed k σ.rc4) mn mx).1
          (rc4rand_between (rc4rand_seed k σ.rc4) mn mx).2).2) := rfl

/-- Unfolding equation for the `check = false, rand = true` branch of
`randomData`. -/
theorem randomData_rand_eq (σ : ProgState) (k mn mx : Nat) :
    randomData σ false true k mn mx =
      ({ (randbetween σ mn mx).1 with
           rc4 := (rc4rand_set (rc4rand_seed k (randbetween σ mn mx).1.rc4)
             (randbetween σ mn mx).2).1 },
       (randbetween σ mn mx).2,
       (rc4rand_set (rc4rand_seed k (randbetween σ mn mx).1.rc4)
          (randbetween σ mn mx).2).2) := rfl

/-- Unfolding equation for the `check = false, rand = false` branch of
`randomData`. -/
theorem randomData_norand_eq (σ : ProgState) (k mn mx : Nat) :
    randomData σ false false k mn mx =
      ((randbetween σ mn mx).1, (randbetween σ mn mx).2,
       List.replicate (randbetween σ mn mx).2 120) := rfl

/-- Regenerating from the state just seeded with the key reproduces the
length and bytes that the integrity check then accepts. -/
theorem checkDataIntegrity_self (st : RC4State) (k mn mx : Nat) :
    (checkDataIntegrity st REDIS_GET REDIS_REPLY_STRING k mn mx
       (rc4rand_between (rc4rand_seed k st) mn mx).2
       (rc4rand_set (rc4rand_between (rc4rand_seed k st) mn mx).1
          (rc4rand_between (rc4rand_seed k st) mn mx).2).2).1 = true := by
  have hlen := rc4rand_set_length (rc4rand_between (rc4rand_seed k st) mn mx).1
    (rc4rand_between (rc4rand_seed k st) mn mx).2
  have htake : ((rc4rand_set (rc4rand_between (rc4rand_seed k st) mn mx).1
      (rc4rand_between (rc4rand_seed k st) mn mx).2).2).take
        (rc4rand_between (rc4rand_seed k st) mn mx).2
      = (rc4rand_set (rc4rand_between (rc4rand_seed k st) mn mx).1
          (rc4rand_between (rc4rand_seed k st) mn mx).2).2 :=
    List.take_of_length_le (le_of_eq hlen)
  simp only [checkDataIntegrity]
  rw [if_pos ⟨trivial, trivial⟩, if_neg (fun h => h rfl), if_neg (fun h => h htake)]

/-- Claim C1: in integrity mode (`check = true`) the SET payload for key `k`
is produced by reseeding the keystream with `k`, drawing
`L = rc4rand_between(min, max)` and filling `L` keystream bytes; the
generation is key-addressable: for every key and every configuration with
`1 ≤ min ≤ max`, regenerating from the same key yields the identical
`(L, bytes)` pair, regardless of the generator state left by earlier
requests, so `checkDataIntegrity` on a later GET of the same key passes
byte-for-byte. -/
theorem checkmode_payload_roundtrip (σ1 : ProgState) (st2 : RC4State)
    (rand : Bool) (k mn mx : Nat) (_h1 : 1 ≤ mn) (_h2 : mn ≤ mx) :
    (checkDataIntegrity st2 REDIS_GET REDIS_REPLY_STRING k mn mx
        (randomData σ1 true rand k mn mx).2.1
        (randomData σ1 true rand k mn mx).2.2).1 = true
    ∧ ∀ σ2 : ProgState,
        (randomData σ2 true rand k mn mx).2 = (randomData σ1 true rand k mn mx).2 := by
  constructor
  · rw [randomData_check_eq]
    dsimp only
    rw [rc4rand_seed_const k σ1.rc4 st2]
    exact checkDataIntegrity_self st2 k mn mx
  · intro σ2
    rw [randomData_check_eq, randomData_check_eq]
    dsimp only
    rw [rc4rand_seed_const k σ2.rc4 σ1.rc4]

/-- Witness for C1 at a concrete configuration. -/
theorem checkmode_payload_roundtrip_w :
    ((1 ≤ 1 ∧ 1 ≤ 4) : Prop)
    ∧ ((checkDataIntegrity rc4Init REDIS_GET REDIS_REPLY_STRING 3 1 4
          (randomData ⟨rc4Init, fun _ => 0, 0⟩ true false 3 1 4).2.1
          (randomData ⟨rc4Init, fun _ => 0, 0⟩ true false 3 1 4).2.2).1 = true
        ∧ ∀ σ2 : ProgState,
          (randomData σ2 true false 3 1 4).2 =
            (randomData ⟨rc4Init, fun _ => 0, 0⟩ true false 3 1 4).2) :=
  ⟨by omega,
   checkmode_payload_roundtrip ⟨rc4Init, fun _ => 0, 0⟩ rc4Init false 3 1 4
     (by omega) (by omega)⟩

/-! ## Claim C2: purity of payload generation -/

/-- A program state whose libc PRNG always draws 0. -/
def progStateA : ProgState := ⟨rc4Init, fun _ => 0, 0⟩

/-- A program state whose libc PRNG always draws 1 (for example, the state
left after a different history of `random()` draws). -/
def progStateB : ProgState := ⟨rc4Init, fun _ => 1, 0⟩

/-- Counterexample to claim C2: with `check = false` the payload length is
drawn from the libc PRNG (`randbetween`), so two invocations with the five
inputs `(keyid, check, rand, min, max) = (0, false, false, 1, 2)` but
different PRNG histories produce different payloads (length 1 versus
length 2). -/
theorem randomData_not_pure :
    (randomData progStateA false false 0 1 2).2 ≠
      (randomData progStateB false false 0 1 2).2 := by
  decide

/-- Claim C2 (amended): payload generation is pure given
`(keyid, check, rand, min, max)` when `check = true`; when `check = false`
it additionally depends on the libc PRNG state, so purity holds only once
the PRNG stream and cursor are included among the inputs. -/
theorem randomData_pure_amended (σ1 σ2 : ProgState) (check rand : Bool)
    (keyid mn mx : Nat) :
    ((randomData σ1 true rand keyid mn mx).2 =
        (randomData σ2 true rand keyid mn mx).2)
    ∧ (σ1.randseq = σ2.randseq → σ1.randpos = σ2.randpos →
        (randomData σ1 check rand keyid mn mx).2 =
          (randomData σ2 check rand keyid mn mx).2) := by
  constructor
  · rw [randomData_check_eq, randomData_check_eq]
    dsimp only
    rw [rc4rand_seed_const keyid σ1.rc4 σ2.rc4]
  · intro hseq hpos
    have hval : (randbetween σ1 mn mx).2 = (randbetween σ2 mn mx).2 := by
      simp [randbetween, randomCall, hseq, hpos]
    cases check with
    | true =>
        rw [randomData_check_eq, randomData_check_eq]
        dsimp only
        rw [rc4rand_seed_const keyid σ1.rc4 σ2.rc4]
    | false =>
        cases rand with
        | true =>
            rw [randomData_rand_eq, randomData_rand_eq]
            dsimp only
            rw [hval, rc4rand_seed_const keyid (randbetween σ1 mn mx).1.rc4
              (randbetween σ2 mn mx).1.rc4]
        | false =>
            rw [randomData_norand_eq, randomData_norand_eq]
            dsimp only
            rw [hval]

/-- Witness for the amended C2 at concrete inputs. -/
theorem randomData_pure_amended_w :
    ((randomData progStateA true false 5 1 2).2 =
        (randomData progStateA true false 5 1 2).2)
    ∧ (randomData progStateA false false 5 1 2).2 =
        (randomData progStateA false false 5 1 2).2 :=
  ⟨(randomData_pure_amended progStateA progStateA false false 5 1 2).1,
   (randomData_pure_amended progStateA progStateA false false 5 1 2).2 rfl rfl⟩

/-! ## Claim C10: seeding fully resets the generator -/

/-- Claim C10: `rc4rand_seed` rebuilds the 256-byte permutation and both
indices from its argument alone, so the byte sequence after seeding is
independent of all prior keystream usage; consequently payload generation
and integrity regeneration for one key are unaffected by interleaved
keystream use on behalf of other clients, because every use reseeds
immediately before drawing. -/
theorem seed_resets_generator (seed n keyid mn mx reply_len : Nat)
    (reply_str : List Nat) (st1 st2 : RC4State) :
    rc4rand_seed seed st1 = rc4rand_seed seed st2
    ∧ (rc4rand_set (rc4rand_seed seed st1) n).2 =
        (rc4rand_set (rc4rand_seed seed st2) n).2
    ∧ (checkDataIntegrity st1 REDIS_GET REDIS_REPLY_STRING keyid mn mx
          reply_len reply_str).1 =
        (checkDataIntegrity st2 REDIS_GET REDIS_REPLY_STRING keyid mn mx
          reply_len reply_str).1 := by
  refine ⟨rc4rand_seed_const seed st1 st2, ?_, ?_⟩
  · rw [rc4rand_seed_const seed st1 st2]
  · simp only [checkDataIntegrity]
    rw [rc4rand_seed_const keyid st1 st2]
    simp only [if_pos (show True ∧ True from ⟨trivial, trivial⟩)]

/-! ## Claim C3: structure of `rc4rand_seed` and `rc4rand_set`

Spec-side definitions, written from the specification's own words
(section 4.1): the seeded sbox is the fixed literal XORed pointwise with
the little-endian seed bytes, and `fill` is `n` iterations of the standard
PRGA step reading the post-swap values. -/

/-- Spec-side description of sbox entry `k` after seeding:
`S[k] = literal[k] XOR seed_bytes[k % 8]`. -/
def sboxSpecByte (seed k : Nat) : Nat := rc4_sbox_initF (idx k) ^^^ seedByte seed k

/-- Spec-side PRGA step on `(S, i, j)`:
`i = (i+1) & 0xff; j = (j+S[i]) & 0xff; swap(S[i], S[j]);
out = S[(S[i]+S[j]) & 0xff]` with the sum read from the post-swap array. -/
def prgaStepSpec (S : Fin 256 → Nat) (i j : Nat) :
    ((Fin 256 → Nat) × Nat × Nat) × Nat :=
  let i' := (i + 1) % 256
  let j' := (j + S (idx i')) % 256
  let S' := Function.update (Function.update S (idx i') (S (idx j'))) (idx j') (S (idx i'))
  ((S', i', j'), S' (idx (S' (idx i') + S' (idx j'))))

/-- Spec-side fill: exactly `n` iterations of `prgaStepSpec`. -/
def prgaFillSpec : ((Fin 256 → Nat) × Nat × Nat) → Nat → ((Fin 256 → Nat) × Nat × Nat) × List Nat
  | s, 0 => (s, [])
  | s, n + 1 =>
      let r := prgaStepSpec s.1 s.2.1 s.2.2
      let rest := prgaFillSpec r.1 n
      (rest.1, r.2 :: rest.2)

theorem seedXorFrom_apply (seed : Nat) :
    ∀ (n i : Nat) (S : Fin 256 → Nat) (k : Fin 256), i + n ≤ 256 →
      seedXorFrom seed n S i k =
        if i ≤ (k : Nat) ∧ (k : Nat) < i + n then S k ^^^ seedByte seed k else S k := by
  intro n
  induction n with
  | zero =>
      intro i S k h
      simp only [seedXorFrom]
      rw [if_neg (by omega)]
  | succ n ih =>
      intro i S k h
      have hi : i < 256 := by omega
      have hidx : (idx i : Nat) = i := Nat.mod_eq_of_lt hi
      simp only [seedXorFrom]
      rw [ih (i + 1) _ k (by omega)]
      by_cases hk : (k : Nat) = i
      · have hki : k = idx i := by
          apply Fin.ext
          rw [hidx, hk]
        rw [if_neg (by omega), if_pos (by omega), hki, Function.update_same, hidx]
      · have hki : k ≠ idx i := by
          intro hcon
          apply hk
          rw [hcon, hidx]
        rw [Function.update_noteq hki]
        by_cases hrange : i + 1 ≤ (k : Nat) ∧ (k : Nat) < i + 1 + n
        · rw [if_pos hrange, if_pos (by omega)]
        · rw [if_neg hrange, if_neg (by omega)]

/-- The post-swap values at the two swapped positions sum to the same
value as the pre-swap ones. -/
theorem swap_sum (S : Fin 256 → Nat) (a b : Fin 256) :
    Function.update (Function.update S a (S b)) b (S a) a +
      Function.update (Function.update S a (S b)) b (S a) b = S a + S b := by
  have hb : Function.update (Function.update S a (S b)) b (S a) b = S a :=
    Function.update_same _ _ _
  by_cases hc : a = b
  · subst hc
    rw [hb]
  · have ha : Function.update (Function.update S a (S b)) b (S a) a = S b := by
      rw [Function.update_noteq hc, Function.update_same]
    rw [ha, hb, Nat.add_comm]

/-- The code's PRGA step equals the spec-side step. -/
theorem rc4Step_eq_spec (st : RC4State) :
    ((rc4Step st).1.sbox, (rc4Step st).1.i, (rc4Step st).1.j) =
        (prgaStepSpec st.sbox st.i st.j).1
    ∧ (rc4Step st).2 = (prgaStepSpec st.sbox st.i st.j).2 := by
  constructor
  · rfl
  · simp only [rc4Step, prgaStepSpec]
    rw [swap_sum st.sbox (idx ((st.i + 1) % 256))
      (idx ((st.j + st.sbox (idx ((st.i + 1) % 256))) % 256))]

/-- The code's fill loop equals `n` spec-side PRGA iterations. -/
theorem rc4rand_set_eq_prga (n : Nat) :
    ∀ st : RC4State,
      (rc4rand_set st n).2 = (prgaFillSpec (st.sbox, st.i, st.j) n).2 := by
  induction n with
  | zero => intro st; rfl
  | succ n ih =>
      intro st
      obtain ⟨h1, h2⟩ := rc4Step_eq_spec st
      simp only [rc4rand_set, prgaFillSpec]
      rw [ih (rc4Step st).1, h2]
      have : ((rc4Step st).1.sbox, (rc4Step st).1.i, (rc4Step st).1.j) =
          (prgaStepSpec st.sbox st.i st.j).1 := h1
      rw [this]

/-- Claim C3: `rc4rand_seed(s)` overwrites the 256-byte permutation with the
fixed literal, XORs the little-endian seed bytes in (`S[k] ^= s[k % 8]` for
`k` in `[0, 256)`) and resets `i = j = 0`; `rc4rand_set(out, n)` performs
exactly `n` iterations of the standard PRGA step, so the same seed always
produces the same byte sequence. -/
theorem keystream_seed_fill (seed n k : Nat) (st st' : RC4State) (hk : k < 256) :
    (rc4rand_seed seed st).sbox (idx k) = sboxSpecByte seed k
    ∧ (rc4rand_seed seed st).i = 0 ∧ (rc4rand_seed seed st).j = 0
    ∧ (rc4rand_set st n).2 = (prgaFillSpec (st.sbox, st.i, st.j) n).2
    ∧ (rc4rand_set (rc4rand_seed seed st) n).2 =
        (rc4rand_set (rc4rand_seed seed st') n).2 := by
  refine ⟨?_, rfl, rfl, rc4rand_set_eq_prga n st, ?_⟩
  · show seedXorFrom seed 256 rc4_sbox_initF 0 (idx k) = sboxSpecByte seed k
    rw [seedXorFrom_apply seed 256 0 rc4_sbox_initF (idx k) (by omega)]
    have hkv : ((idx k : Fin 256) : Nat) = k := Nat.mod_eq_of_lt hk
    rw [if_pos (by omega), sboxSpecByte, hkv]
  · rw [rc4rand_seed_const seed st st']

/-- Witness for C3 at a concrete seed, length and index. -/
theorem keystream_seed_fill_w :
    (7 < 256)
    ∧ ((rc4rand_seed 49992 rc4Init).sbox (idx 7) = sboxSpecByte 49992 7
      ∧ (rc4rand_seed 49992 rc4Init).i = 0 ∧ (rc4rand_seed 49992 rc4Init).j = 0
      ∧ (rc4rand_set rc4Init 3).2 =
          (prgaFillSpec (rc4Init.sbox, rc4Init.i, rc4Init.j) 3).2
      ∧ (rc4rand_set (rc4rand_seed 49992 rc4Init) 3).2 =
          (rc4rand_set (rc4rand_seed 49992 rc4Init) 3).2) :=
  ⟨by omega, keystream_seed_fill 49992 3 7 rc4Init rc4Init (by omega)⟩

/-! ## Claim C4: the 100-slot operation table

`fillOpTab` (redis-load.c lines 517-526) and the setup sequence in `main`
(lines 576-591).  The C array `optab[100]` is modelled as a function from
bucket index to operation code; `fillOpTab` writes `perc` consecutive
entries, skipping any write at or beyond index 100. -/

/-- `fillOpTab(&i, op, perc)` (redis-load.c lines 517-526): `perc` loop
iterations, each writing `op` at the running index and advancing it only
while the index is below 100.  Returns the table and the final index. -/
def fillOpTab : (Nat → Nat) → Nat → Nat → Nat → (Nat → Nat) × Nat
  | tab, i, _, 0 => (tab, i)
  | tab, i, op, j + 1 =>
      if i < 100 then fillOpTab (Function.update tab i op) (i + 1) op j
      else fillOpTab tab i op j

/-- The operation-table setup of `main` (redis-load.c lines 582-590):
start from a table of GETs, then fill SET, DEL, LPUSH, LPOP, HSET, HGET,
HGETALL, SWAPIN percentages in that order. -/
def buildOpTab (sp dp lp lpp hsp hgp hap swp : Nat) : Nat → Nat :=
  let r1 := fillOpTab (fun _ => REDIS_GET) 0 REDIS_SET sp
  let r2 := fillOpTab r1.1 r1.2 REDIS_DEL dp
  let r3 := fillOpTab r2.1 r2.2 REDIS_LPUSH lp
  let r4 := fillOpTab r3.1 r3.2 REDIS_LPOP lpp
  let r5 := fillOpTab r4.1 r4.2 REDIS_HSET hsp
  let r6 := fillOpTab r5.1 r5.2 REDIS_HGET hgp
  let r7 := fillOpTab r6.1 r6.2 REDIS_HGETALL hap
  let r8 := fillOpTab r7.1 r7.2 REDIS_SWAPIN swp
  r8.1

/-- Number of buckets of the 100-slot table holding operation `op`. -/
def opCount (tab : Nat → Nat) (op : Nat) : Nat :=
  ((Finset.range 100).filter (fun b => tab b = op)).card

theorem fillOpTab_apply : ∀ (j : Nat) (tab : Nat → Nat) (i op b : Nat),
    (fillOpTab tab i op j).1 b =
      if i ≤ b ∧ b < i + j ∧ b < 100 then op else tab b := by
  intro j
  induction j with
  | zero =>
      intro tab i op b
      simp only [fillOpTab]
      rw [if_neg (by omega)]
  | succ j ih =>
      intro tab i op b
      simp only [fillOpTab]
      by_cases hi : i < 100
      · rw [if_pos hi, ih]
        by_cases hb : b = i
        · subst hb
          rw [if_neg (by omega), if_pos (by omega), Function.update_same]
        · rw [Function.update_noteq hb]
          by_cases hr : i + 1 ≤ b ∧ b < i + 1 + j ∧ b < 100
          · rw [if_pos hr, if_pos (by omega)]
          · rw [if_neg hr, if_neg (by omega)]
      · rw [if_neg hi, ih]
        exact if_congr (by omega) rfl rfl

theorem fillOpTab_index : ∀ (j : Nat) (tab : Nat → Nat) (i op : Nat),
    (fillOpTab tab i op j).2 = max (min (i + j) 100) i := by
  intro j
  induction j with
  | zero =>
      intro tab i op
      simp only [fillOpTab]
      omega
  | succ j ih =>
      intro tab i op
      simp only [fillOpTab]
      by_cases hi : i < 100
      · rw [if_pos hi, ih]; omega
      · rw [if_neg hi, ih]; omega

/-- A sequence of `fillOpTab` stages, each resuming at the index the
previous stage returned; `buildOpTab` is such a sequence. -/
def fillStages : (Nat → Nat) → Nat → List (Nat × Nat) → (Nat → Nat) × Nat
  | tab, i, [] => (tab, i)
  | tab, i, s :: rest =>
      fillStages (fillOpTab tab i s.1 s.2).1 (fillOpTab tab i s.1 s.2).2 rest

/-- The value a sequence of consecutive stages assigns to bucket `b` when
the stages start at index `i`: the first stage whose region contains `b`
wins, otherwise the previous table value `d` shows through. -/
def stageVal : Nat → List (Nat × Nat) → Nat → Nat → Nat
  | _, [], d, _ => d
  | i, s :: rest, d, b =>
      if i ≤ b ∧ b < i + s.2 then s.1 else stageVal (i + s.2) rest d b

theorem stageVal_low : ∀ (stages : List (Nat × Nat)) (j d b : Nat),
    b < j → stageVal j stages d b = d := by
  intro stages
  induction stages with
  | nil => intro j d b _; rfl
  | cons s rest ih =>
      intro j d b hb
      simp only [stageVal]
      rw [if_neg (by omega)]
      exact ih (j + s.2) d b (by omega)

theorem fillStages_apply : ∀ (stages : List (Nat × Nat)) (tab : Nat → Nat) (i b : Nat),
    i + (stages.map Prod.snd).sum ≤ 100 →
    (fillStages tab i stages).1 b = stageVal i stages (tab b) b
    ∧ (fillStages tab i stages).2 = i + (stages.map Prod.snd).sum := by
  intro stages
  induction stages with
  | nil =>
      intro tab i b _
      exact ⟨rfl, by simp [fillStages]⟩
  | cons s rest ih =>
      intro tab i b hsum
      have hrest : s.2 + (rest.map Prod.snd).sum = ((s :: rest).map Prod.snd).sum := by
        simp
      have hidx : (fillOpTab tab i s.1 s.2).2 = i + s.2 := by
        rw [fillOpTab_index]; omega
      have hrec := ih (fillOpTab tab i s.1 s.2).1 (i + s.2) b (by omega)
      constructor
      · show (fillStages (fillOpTab tab i s.1 s.2).1 (fillOpTab tab i s.1 s.2).2 rest).1 b = _
        rw [hidx, hrec.1, fillOpTab_apply]
        by_cases hr : i ≤ b ∧ b < i + s.2
        · rw [if_pos (by omega)]
          rw [stageVal_low rest (i + s.2) s.1 b (by omega)]
          simp only [stageVal]
          rw [if_pos hr]
        · rw [if_neg (by omega)]
          simp only [stageVal]
          rw [if_neg hr]
      · show (fillStages (fillOpTab tab i s.1 s.2).1 (fillOpTab tab i s.1 s.2).2 rest).2 = _
        rw [hidx, hrec.2]
        omega

/-- `buildOpTab` as a stage sequence. -/
theorem buildOpTab_stages (sp dp lp lpp hsp hgp hap swp : Nat) :
    buildOpTab sp dp lp lpp hsp hgp hap swp =
      (fillStages (fun _ => REDIS_GET) 0
        [(REDIS_SET, sp), (REDIS_DEL, dp), (REDIS_LPUSH, lp), (REDIS_LPOP, lpp),
         (REDIS_HSET, hsp), (REDIS_HGET, hgp), (REDIS_HGETALL, hap),
         (REDIS_SWAPIN, swp)]).1 := rfl

set_option maxHeartbeats 1600000

/-- Closed form of the operation table when the percentages sum to at most
100: consecutive regions SET, DEL, LPUSH, LPOP, HSET, HGET, HGETALL,
SWAPIN, with GET everywhere else. -/
theorem buildOpTab_apply (sp dp lp lpp hsp hgp hap swp b : Nat)
    (hsum : sp + dp + lp + lpp + hsp + hgp + hap + swp ≤ 100) :
    buildOpTab sp dp lp lpp hsp hgp hap swp b =
      if b < sp then REDIS_SET
      else if b < sp + dp then REDIS_DEL
      else if b < sp + dp + lp then REDIS_LPUSH
      else if b < sp + dp + lp + lpp then REDIS_LPOP
      else if b < sp + dp + lp + lpp + hsp then REDIS_HSET
      else if b < sp + dp + lp + lpp + hsp + hgp then REDIS_HGET
      else if b < sp + dp + lp + lpp + hsp + hgp + hap then REDIS_HGETALL
      else if b < sp + dp + lp + lpp + hsp + hgp + hap + swp then REDIS_SWAPIN
      else REDIS_GET := by
  rw [buildOpTab_stages]
  rw [(fillStages_apply _ (fun _ => REDIS_GET) 0 b (by simp; omega)).1]
  simp only [stageVal]
  split_ifs <;> omega

/-- If the table holds `v` exactly on `[lo, hi)` within the 100 buckets,
the bucket count of `v` is `hi - lo`. -/
theorem count_region (tab : Nat → Nat) (v lo hi : Nat) (hhi : hi ≤ 100)
    (hiff : ∀ b, b < 100 → (tab b = v ↔ lo ≤ b ∧ b < hi)) :
    opCount tab v = hi - lo := by
  have hset : (Finset.range 100).filter (fun b => tab b = v) = Finset.Ico lo hi := by
    apply Finset.ext
    intro b
    simp only [Finset.mem_filter, Finset.mem_range, Finset.mem_Ico]
    constructor
    · rintro ⟨hb, hv⟩
      exact (hiff b hb).1 hv
    · intro hm
      have hb : b < 100 := by omega
      exact ⟨hb, (hiff b hb).2 hm⟩
  rw [opCount, hset, Nat.card_Ico]

/-- Claim C4: the 100-slot operation table is built by writing GET into all
slots and then overwriting consecutive slots with SET, DEL, LPUSH, LPOP,
HSET, HGET, HGETALL, SWAPIN percentages in that order; when the
percentages sum to `S ≤ 100` every operation occupies exactly its
percentage of buckets and the remaining `100 - S` buckets stay GET, and
for any percentages at all (the sum may exceed 100) entries beyond bucket
index 100 are silently discarded: every bucket at index 100 or above still
reads GET and the build never rejects the configuration. -/
theorem optab_percentages (sp dp lp lpp hsp hgp hap swp : Nat)
    (hsum : sp + dp + lp + lpp + hsp + hgp + hap + swp ≤ 100) :
    opCount (buildOpTab sp dp lp lpp hsp hgp hap swp) REDIS_SET = sp
    ∧ opCount (buildOpTab sp dp lp lpp hsp hgp hap swp) REDIS_DEL = dp
    ∧ opCount (buildOpTab sp dp lp lpp hsp hgp hap swp) REDIS_LPUSH = lp
    ∧ opCount (buildOpTab sp dp lp lpp hsp hgp hap swp) REDIS_LPOP = lpp
    ∧ opCount (buildOpTab sp dp lp lpp hsp hgp hap swp) REDIS_HSET = hsp
    ∧ opCount (buildOpTab sp dp lp lpp hsp hgp hap swp) REDIS_HGET = hgp
    ∧ opCount (buildOpTab sp dp lp lpp hsp hgp hap swp) REDIS_HGETALL = hap
    ∧ opCount (buildOpTab sp dp lp lpp hsp hgp hap swp) REDIS_SWAPIN = swp
    ∧ opCount (buildOpTab sp dp lp lpp hsp hgp hap swp) REDIS_GET =
        100 - (sp + dp + lp + lpp + hsp + hgp + hap + swp)
    ∧ ∀ (a1 a2 a3 a4 a5 a6 a7 a8 k : Nat), 100 ≤ k →
        buildOpTab a1 a2 a3 a4 a5 a6 a7 a8 k = REDIS_GET := by
  have happ := buildOpTab_apply sp dp lp lpp hsp hgp hap swp
  refine ⟨?_, ?_, ?_, ?_, ?_, ?_, ?_, ?_, ?_, ?_⟩
  · have hc : opCount (buildOpTab sp dp lp lpp hsp hgp hap swp) REDIS_SET =
        sp - (0) := by
      refine count_region _ _ (0) (sp) (by omega) ?_
      intro b hb
      rw [happ b hsum]
      simp only [REDIS_GET, REDIS_SET, REDIS_DEL, REDIS_SWAPIN, REDIS_LPUSH,
        REDIS_LPOP, REDIS_HSET, REDIS_HGET, REDIS_HGETALL]
      split_ifs <;> omega
    rw [Nat.sub_zero] at hc
    exact hc
  · have hc : opCount (buildOpTab sp dp lp lpp hsp hgp hap swp) REDIS_DEL =
        sp + dp - (sp) := by
      refine count_region _ _ (sp) (sp + dp) (by omega) ?_
      intro b hb
      rw [happ b hsum]
      simp only [REDIS_GET, REDIS_SET, REDIS_DEL, REDIS_SWAPIN, REDIS_LPUSH,
        REDIS_LPOP, REDIS_HSET, REDIS_HGET, REDIS_HGETALL]
      split_ifs <;> omega
    rw [Nat.add_sub_cancel_left] at hc
    exact hc
  · have hc : opCount (buildOpTab sp dp lp lpp hsp hgp hap swp) REDIS_LPUSH =
        sp + dp + lp - (sp + dp) := by
      refine count_region _ _ (sp + dp) (sp + dp + lp) (by omega) ?_
      intro b hb
      rw [happ b hsum]
      simp only [REDIS_GET, REDIS_SET, REDIS_DEL, REDIS_SWAPIN, REDIS_LPUSH,
        REDIS_LPOP, REDIS_HSET, REDIS_HGET, REDIS_HGETALL]
      split_ifs <;> omega
    rw [Nat.add_sub_cancel_left] at hc
    exact hc
  · have hc : opCount (buildOpTab sp dp lp lpp hsp hgp hap swp) REDIS_LPOP =
        sp + dp + lp + lpp - (sp + dp + lp) := by
      refine count_region _ _ (sp + dp + lp) (sp + dp + lp + lpp) (by omega) ?_
      intro b hb
      rw [happ b hsum]
      simp only [REDIS_GET, REDIS_SET, REDIS_DEL, REDIS_SWAPIN, REDIS_LPUSH,
        REDIS_LPOP, REDIS_HSET, REDIS_HGET, REDIS_HGETALL]
      split_ifs <;> omega
    rw [Nat.add_sub_cancel_left] at hc
    exact hc
  · have hc : opCount (buildOpTab sp dp lp lpp hsp hgp hap swp) REDIS_HSET =
        sp + dp + lp + lpp + hsp - (sp + dp + lp + lpp) := by
      refine count_region _ _ (sp + dp + lp + lpp) (sp + dp + lp + lpp + hsp) (by omega) ?_
      intro b hb
      rw [happ b hsum]
      simp only [REDIS_GET, REDIS_SET, REDIS_DEL, REDIS_SWAPIN, REDIS_LPUSH,
        REDIS_LPOP, REDIS_HSET, REDIS_HGET, REDIS_HGETALL]
      split_ifs <;> omega
    rw [Nat.add_sub_cancel_left] at hc
    exact hc
  · have hc : opCount (buildOpTab sp dp lp lpp hsp hgp hap swp) REDIS_HGET =
        sp + dp + lp + lpp + hsp + hgp - (sp + dp + lp + lpp + hsp) := by
      refine count_region _ _ (sp + dp + lp + lpp + hsp) (sp + dp + lp + lpp + hsp + hgp) (by omega) ?_
      intro b hb
      rw [happ b hsum]
      simp only [REDIS_GET, REDIS_SET, REDIS_DEL, REDIS_SWAPIN, REDIS_LPUSH,
        REDIS_LPOP, REDIS_HSET, REDIS_HGET, REDIS_HGETALL]
      split_ifs <;> omega
    rw [Nat.add_sub_cancel_left] at hc
    exact hc
  · have hc : opCount (buildOpTab sp dp lp lpp hsp hgp hap swp) REDIS_HGETALL =
        sp + dp + lp + lpp + hsp + hgp + hap - (sp + dp + lp + lpp + hsp + hgp) := by
      refine count_region _ _ (sp + dp + lp + lpp + hsp + hgp) (sp + dp + lp + lpp + hsp + hgp + hap) (by omega) ?_
      intro b hb
      rw [happ b hsum]
      simp only [REDIS_GET, REDIS_SET, REDIS_DEL, REDIS_SWAPIN, REDIS_LPUSH,
        REDIS_LPOP, REDIS_HSET, REDIS_HGET, REDIS_HGETALL]
      split_ifs <;> omega
    rw [Nat.add_sub_cancel_left] at hc
    exact hc
  · have hc : opCount (buildOpTab sp dp lp lpp hsp hgp hap swp) REDIS_SWAPIN =
        sp + dp + lp + lpp + hsp + hgp + hap + swp - (sp + dp + lp + lpp + hsp + hgp + hap) := by
      refine count_region _ _ (sp + dp + lp + lpp + hsp + hgp + hap) (sp + dp + lp + lpp + hsp + hgp + hap + swp) (by omega) ?_
      intro b hb
      rw [happ b hsum]
      simp only [REDIS_GET, REDIS_SET, REDIS_DEL, REDIS_SWAPIN, REDIS_LPUSH,
        REDIS_LPOP, REDIS_HSET, REDIS_HGET, REDIS_HGETALL]
      split_ifs <;> omega
    rw [Nat.add_sub_cancel_left] at hc
    exact hc
  · have hc : opCount (buildOpTab sp dp lp lpp hsp hgp hap swp) REDIS_GET =
        100 - (sp + dp + lp + lpp + hsp + hgp + hap + swp) := by
      refine count_region _ _ (sp + dp + lp + lpp + hsp + hgp + hap + swp) (100) (by omega) ?_
      intro b hb
      rw [happ b hsum]
      simp only [REDIS_GET, REDIS_SET, REDIS_DEL, REDIS_SWAPIN, REDIS_LPUSH,
        REDIS_LPOP, REDIS_HSET, REDIS_HGET, REDIS_HGETALL]
      split_ifs <;> omega
    exact hc
  · intro a1 a2 a3 a4 a5 a6 a7 a8 k hk
    have hstage : ∀ (tab : Nat → Nat) (i op j : Nat),
        (fillOpTab tab i op j).1 k = tab k := by
      intro tab i op j
      rw [fillOpTab_apply]
      rw [if_neg (by omega)]
    simp only [buildOpTab]
    rw [hstage, hstage, hstage, hstage, hstage, hstage, hstage, hstage]

set_option maxHeartbeats 400000

/-- Witness for C4 at a concrete mix of percentages. -/
theorem optab_percentages_w :
    (50 + 10 + 5 + 5 + 5 + 5 + 5 + 5 ≤ 100)
    ∧ (opCount (buildOpTab 50 10 5 5 5 5 5 5) REDIS_SET = 50
       ∧ opCount (buildOpTab 50 10 5 5 5 5 5 5) REDIS_DEL = 10
       ∧ opCount (buildOpTab 50 10 5 5 5 5 5 5) REDIS_LPUSH = 5
       ∧ opCount (buildOpTab 50 10 5 5 5 5 5 5) REDIS_LPOP = 5
       ∧ opCount (buildOpTab 50 10 5 5 5 5 5 5) REDIS_HSET = 5
       ∧ opCount (buildOpTab 50 10 5 5 5 5 5 5) REDIS_HGET = 5
       ∧ opCount (buildOpTab 50 10 5 5 5 5 5 5) REDIS_HGETALL = 5
       ∧ opCount (buildOpTab 50 10 5 5 5 5 5 5) REDIS_SWAPIN = 5
       ∧ opCount (buildOpTab 50 10 5 5 5 5 5 5) REDIS_GET =
           100 - (50 + 10 + 5 + 5 + 5 + 5 + 5 + 5)
       ∧ ∀ (a1 a2 a3 a4 a5 a6 a7 a8 k : Nat), 100 ≤ k →
           buildOpTab a1 a2 a3 a4 a5 a6 a7 a8 k = REDIS_GET) :=
  ⟨by omega, optab_percentages 50 10 5 5 5 5 5 5 (by omega)⟩

/-! ## Incremental reply parser (redis-load.c, event-loop version)

`readHandler` (lines 960-1063) appends the bytes read from the socket to
`c->ibuf`, classifies the reply on its first byte when the reply type is
still unknown, and then runs the `processdata` goto-loop until the buffer
is exhausted or a reply completes (`clientDone`).  The parser state per
client is `(ibuf, replytype, readlen, mbulk)` with `-1` sentinels. -/

def REPLY_UNKNOWN : Nat := 0
def REPLY_INT : Nat := 1
def REPLY_RETCODE : Nat := 2
def REPLY_BULK : Nat := 3
def REPLY_MBULK : Nat := 4

/-- Parser state of a client (the fields of `struct _client` the codec
uses; `resetClient`/`createClient` initialise them to
`ibuf = "", replytype = REPLY_UNKNOWN, readlen = 0, mbulk = -1`). -/
structure PClient where
  ibuf : List Nat
  replytype : Nat
  readlen : Int
  mbulk : Int
deriving DecidableEq

/-- Outcome of running the codec: either the reply completed
(`clientDone` fired; the field holds `ibuf` at that moment) or the parser
returned, waiting for more socket data. -/
inductive ParseOutcome where
  | done (finalIbuf : List Nat)
  | more (c : PClient)
deriving DecidableEq

/-- `strchr(ibuf, sl-ash-n)` on a NUL-terminated buffer: index of the first
newline byte (10), unless a NUL byte (0) comes first. -/
def strchrNL : List Nat → Option Nat
  | [] => none
  | b :: bs =>
      if b = 0 then none
      else if b = 10 then some 0
      else (strchrNL bs).map (· + 1)

def isSpaceByte (b : Nat) : Bool := b = 32 || (9 ≤ b && b ≤ 13)

def isDigitByte (b : Nat) : Bool := 48 ≤ b && b ≤ 57

def atoiLoop : List Nat → Nat → Nat
  | [], acc => acc
  | b :: bs, acc => if isDigitByte b then atoiLoop bs (acc * 10 + (b - 48)) else acc

/-- C `atoi` on a byte buffer: skip whitespace, optional sign, digits. -/
def atoiBytes (l : List Nat) : Int :=
  match l.dropWhile isSpaceByte with
  | 45 :: bs => -(atoiLoop bs 0 : Int)
  | 43 :: bs => (atoiLoop bs 0 : Int)
  | bs => (atoiLoop bs 0 : Int)

def isCRLFByte (b : Nat) : Bool := b = 13 || b = 10

/-- `sdstrim(ibuf, "CRLF")`: strip carriage returns and newlines from both
ends of the buffer. -/
def sdstrimCRLF (l : List Nat) : List Nat :=
  ((l.dropWhile isCRLFByte).reverse.dropWhile isCRLFByte).reverse

/-- `prepareClientForReply` (redis-load.c lines 829-841). -/
def prepareClientForReply (c : PClient) (t : Nat) : PClient :=
  if t = REPLY_BULK then { c with replytype := REPLY_BULK, readlen := -1 }
  else if t = REPLY_MBULK then
    { c with replytype := REPLY_MBULK, readlen := -1, mbulk := -1 }
  else { c with replytype := t, readlen := 0 }

/-- The reply classification switch of `readHandler`
(redis-load.c lines 985-990): only `42 = '*'`, `36 = 'd-ollar'` and
`58 = ':'` are recognised; every other first byte, `'+'` and `'-'`
included, falls to the `default:` case and is treated as a single-line
RETCODE reply. -/
def replyTypeOfByte (b : Nat) : Nat :=
  if b = 42 then REPLY_MBULK
  else if b = 36 then REPLY_BULK
  else if b = 58 then REPLY_INT
  else REPLY_RETCODE

/-- The `processdata` goto-loop of `readHandler` (redis-load.c lines
994-1062), written with explicit fuel so the recursion is structural (each
iteration consumes buffer bytes, so the fuel chosen by `processdata` below
never runs out on the inputs we evaluate).  `phase = true` is the entry at
the `processdata` label; `phase = false` is the bulk-completeness check the
line-parsing section falls through to.  The `(unsigned)c->readlen` cast in
the C comparison makes negative `readlen` compare huge, hence the
`0 ≤ c.readlen` conjunct. -/
def parserStep : Nat → Bool → PClient → ParseOutcome
  | 0, _, c => ParseOutcome.more c
  | fuel + 1, true, c =>
      if c.replytype = REPLY_INT ∨ c.replytype = REPLY_RETCODE ∨
         (c.replytype = REPLY_BULK ∧ c.readlen = -1) ∨
         (c.replytype = REPLY_MBULK ∧ c.readlen = -1) ∨
         (c.replytype = REPLY_MBULK ∧ c.mbulk = -1) then
        match strchrNL c.ibuf with
        | some p =>
            if c.replytype = REPLY_BULK ∨
               (c.replytype = REPLY_MBULK ∧ c.mbulk ≠ -1) then
              let buf := (c.ibuf.set p 0).set (p - 1) 0
              let rl : Int := atoiBytes (buf.drop 1) + 2
              if rl - 2 = -1 then ParseOutcome.done buf
              else parserStep fuel false
                { c with ibuf := buf.drop (p + 1), readlen := rl }
            else if c.replytype = REPLY_MBULK ∧ c.mbulk = -1 then
              let buf := (c.ibuf.set p 0).set (p - 1) 0
              let m : Int := atoiBytes (buf.drop 1)
              if m = -1 then ParseOutcome.done buf
              else parserStep fuel true
                { c with ibuf := buf.drop (p + 1), mbulk := m }
            else ParseOutcome.done (sdstrimCRLF c.ibuf)
        | none => parserStep fuel false c
      else parserStep fuel false c
  | fuel + 1, false, c =>
      if ((c.replytype = REPLY_MBULK ∧ c.mbulk ≠ -1) ∨ c.replytype = REPLY_BULK) ∧
         0 ≤ c.readlen ∧ c.readlen.toNat ≤ c.ibuf.length then
        if c.replytype = REPLY_BULK then ParseOutcome.done c.ibuf
        else if c.mbulk - 1 = 0 then ParseOutcome.done c.ibuf
        else parserStep fuel true
          { c with ibuf := c.ibuf.drop c.readlen.toNat, readlen := -1,
                   mbulk := c.mbulk - 1 }
      else ParseOutcome.more c

/-- `processdata` with fuel ample for the buffer at hand: every two loop
iterations consume at least one buffer byte. -/
def processdata (c : PClient) : ParseOutcome :=
  parserStep (4 * c.ibuf.length + 8) true c

/-- One invocation of `readHandler` after a successful `read`: append the
chunk, classify the first byte if the reply type is still unknown, run the
parse loop. -/
def readHandlerModel (c : PClient) (chunk : List Nat) : ParseOutcome :=
  let c1 : PClient := { c with ibuf := c.ibuf ++ chunk }
  let c2 := if c1.replytype = REPLY_UNKNOWN
            then prepareClientForReply c1 (replyTypeOfByte (c1.ibuf.getD 0 0))
            else c1
  processdata c2

/-- Parser state established by `resetClient` / `createClient`
(redis-load.c lines 813-827 and 1106-1112). -/
def resetState : PClient :=
  { ibuf := [], replytype := REPLY_UNKNOWN, readlen := 0, mbulk := -1 }

/-- Feed a sequence of socket chunks; stop at the first completion. -/
def feedChunks : PClient → List (List Nat) → ParseOutcome
  | c, [] => ParseOutcome.more c
  | c, ch :: rest =>
      match readHandlerModel c ch with
      | ParseOutcome.done v => ParseOutcome.done v
      | ParseOutcome.more c' => feedChunks c' rest

/-! ## Claim C5: classification of the reply-type byte

The synchronous hiredis-style reader (`redisReadReply` in the bundled
client source) dispatches on the first byte and calls `exit(1)` on an
unrecognised one; the incremental `readHandler` classifier does not. -/

/-- The action `redisReadReply` takes after reading the reply-type byte
(bundled hiredis client, `redisReadReply`): `protocolError` is the
`printf` + `exit(1)` path. -/
inductive ReadAction where
  | singleLine (t : Nat)
  | integerReply
  | bulkReply
  | multiBulkReply
  | protocolError
deriving DecidableEq

/-- The dispatch switch of `redisReadReply`: `45 = '-'`, `43 = '+'`,
`58 = ':'`, `36 = 'd-ollar'`, `42 = '*'`; anything else exits 1. -/
def redisReadReplyDispatch (b : Nat) : ReadAction :=
  if b = 45 then ReadAction.singleLine REDIS_REPLY_ERROR
  else if b = 43 then ReadAction.singleLine REDIS_REPLY_STRING
  else if b = 58 then ReadAction.integerReply
  else if b = 36 then ReadAction.bulkReply
  else if b = 42 then ReadAction.multiBulkReply
  else ReadAction.protocolError

/-- Counterexample to claim C5: the incremental parser does not fail
fatally on a malformed first byte.  Byte `88 = 'X'` is classified as an
ordinary RETCODE status line, and the full reply `"X" CR LF` is silently
accepted with a completion carrying `"X"` — the program never exits. -/
theorem readHandler_accepts_unknown_byte :
    replyTypeOfByte 88 = REPLY_RETCODE
    ∧ readHandlerModel resetState [88, 13, 10] = ParseOutcome.done [88] := by
  decide

/-- Claim C5 (amended): only the synchronous hiredis-style reader treats a
first byte outside `{'+', '-', ':', 'd-ollar', '*'}` as a fatal protocol
violation (`exit(1)`); the incremental `readHandler` parser recognises
only `'*'`, `'d-ollar'` and `':'` and classifies every other first byte —
malformed bytes included — as a single-line RETCODE reply, silently
accepting it. -/
theorem unknown_byte_policy (b : Nat)
    (h : ¬(b = 43 ∨ b = 45 ∨ b = 58 ∨ b = 36 ∨ b = 42)) :
    redisReadReplyDispatch b = ReadAction.protocolError
    ∧ replyTypeOfByte b = REPLY_RETCODE := by
  constructor
  · unfold redisReadReplyDispatch
    rw [if_neg (by omega), if_neg (by omega), if_neg (by omega),
      if_neg (by omega), if_neg (by omega)]
  · unfold replyTypeOfByte
    rw [if_neg (by omega), if_neg (by omega), if_neg (by omega)]

/-- Witness for the amended C5 at byte `88 = 'X'`. -/
theorem unknown_byte_policy_w :
    (¬((88 : Nat) = 43 ∨ (88 : Nat) = 45 ∨ (88 : Nat) = 58 ∨
        (88 : Nat) = 36 ∨ (88 : Nat) = 42))
    ∧ (redisReadReplyDispatch 88 = ReadAction.protocolError
       ∧ replyTypeOfByte 88 = REPLY_RETCODE) :=
  ⟨by decide, unknown_byte_policy 88 (by decide)⟩

/-! ## Claim C6: parser incrementality -/

/-- Claim C6 is contradicted by the code: for the well-formed empty
multi-bulk reply `"*0" CR LF` (the reply HGETALL produces for a missing or
empty hash), feeding all of its bytes to a freshly reset parser yields no
completion — the parser parses the `*0` count line, then waits for another
line that will never arrive (state: empty buffer, `replytype = MBULK`,
`readlen = -1`, `mbulk = 0`), so the reply never completes.  For contrast,
the conjuncts also evaluate the parser on neighbouring well-formed inputs
where exactly one completion does fire: a zero-length bulk `"d-ollar 0"`,
a two-element multi-bulk, a bulk split across four socket reads, and a nil
bulk. -/
theorem parser_empty_multibulk_never_completes :
    readHandlerModel resetState [42, 48, 13, 10] =
        ParseOutcome.more ⟨[], REPLY_MBULK, -1, 0⟩
    ∧ readHandlerModel resetState [36, 48, 13, 10, 13, 10] =
        ParseOutcome.done [13, 10]
    ∧ readHandlerModel resetState
        [42, 50, 13, 10, 36, 49, 13, 10, 97, 13, 10, 36, 49, 13, 10, 98, 13, 10] =
        ParseOutcome.done [98, 13, 10]
    ∧ feedChunks resetState [[36], [51, 13], [10, 97, 98], [99, 13, 10]] =
        ParseOutcome.done [97, 98, 99, 13, 10]
    ∧ readHandlerModel resetState [36, 45, 49, 13, 10] =
        ParseOutcome.done [36, 45, 49, 0, 0] := by
  decide

/-! ## Claim C7: latency clamping and histogram bounds

`clientDone` (redis-load.c lines 929-936): `latency = mstime() - c->start;
if (latency > MAX_LATENCY) latency = MAX_LATENCY;
config.latency[latency]++;` with `MAX_LATENCY = 5000` and a histogram of
`MAX_LATENCY + 1 = 5001` `int` counters. -/

/-- The latency value `clientDone` records: the elapsed milliseconds,
clamped above at 5000 (there is no clamp below in the code). -/
def clampLatency (now start : Int) : Int :=
  let latency := now - start
  if latency > 5000 then 5000 else latency

/-- `config.latency[latency]++`: the histogram (a function from index to
counter) with exactly the recorded cell incremented. -/
def recordLatency (hist : Int → Nat) (now start : Int) : Int → Nat :=
  Function.update hist (clampLatency now start)
    (hist (clampLatency now start) + 1)

/-- Claim C7: under a monotone clock (`start ≤ now`) the recorded latency
equals `clamp(now - start, 0, 5000)`, the histogram index lies in
`[0, 5000]` — so the access into the 5001-cell counter array is in
bounds — and exactly one cell is incremented: the recorded cell grows by
one and every other cell is unchanged. -/
theorem latency_clamped_in_bounds (now start : Int) (hist : Int → Nat)
    (h : start ≤ now) :
    clampLatency now start = max 0 (min (now - start) 5000)
    ∧ 0 ≤ clampLatency now start ∧ clampLatency now start ≤ 5000
    ∧ recordLatency hist now start (clampLatency now start) =
        hist (clampLatency now start) + 1
    ∧ ∀ i : Int, i ≠ clampLatency now start →
        recordLatency hist now start i = hist i := by
  refine ⟨?_, ?_, ?_, ?_, ?_⟩
  · unfold clampLatency
    dsimp only
    split_ifs <;> omega
  · unfold clampLatency
    dsimp only
    split_ifs <;> omega
  · unfold clampLatency
    dsimp only
    split_ifs <;> omega
  · exact Function.update_same _ _ _
  · intro i hi
    exact Function.update_noteq hi _ _

/-- Witness for C7 at a concrete completion. -/
theorem latency_clamped_in_bounds_w :
    ((3 : Int) ≤ 7)
    ∧ (clampLatency 7 3 = max 0 (min (7 - 3) 5000)
       ∧ 0 ≤ clampLatency 7 3 ∧ clampLatency 7 3 ≤ 5000
       ∧ recordLatency (fun _ => 0) 7 3 (clampLatency 7 3) =
           (fun _ : Int => 0) (clampLatency 7 3) + 1
       ∧ ∀ i : Int, i ≠ clampLatency 7 3 →
           recordLatency (fun _ => 0) 7 3 i = (fun _ : Int => 0) i) :=
  ⟨by omega, latency_clamped_in_bounds 7 3 (fun _ => 0) (by omega)⟩

/-! ## Claim C9: policy on server-reported error replies -/

/-- What the asynchronous `handleReply` (redis-load.c lines 199-214) does
once it has a non-null reply: an error reply is printed and the process
exits 1; anything else proceeds to latency recording. -/
inductive AsyncAction where
  | exit1
  | recordAndContinue
deriving DecidableEq

def handleReplyDispatch (t : Nat) : AsyncAction :=
  if t = REDIS_REPLY_ERROR then AsyncAction.exit1
  else AsyncAction.recordAndContinue

/-- Outcome of one iteration of a synchronous `vmstat` polling loop:
whether the error was printed and whether the process exits or the loop
continues to the next iteration. -/
structure StatIterResult where
  printedError : Bool
  exits : Bool
deriving DecidableEq

/-- `vmstat` of redis-stat.c (lines 126-133): an error reply is printed
and the process exits 1; otherwise the stats are printed and the loop
continues. -/
def vmstatIterStat (t : Nat) : StatIterResult :=
  if t = REDIS_REPLY_ERROR then ⟨true, true⟩ else ⟨false, false⟩

/-- `vmstat` of the earliest stat utility (src/unnamed/part_002 lines
304-317): an error reply is printed and the loop continues; a string
reply is printed and the loop continues. -/
def vmstatIterEarly (t : Nat) : StatIterResult :=
  if t = REDIS_REPLY_ERROR then ⟨true, false⟩
  else if t = REDIS_REPLY_STRING then ⟨false, false⟩
  else ⟨false, false⟩

/-- Counterexample to claim C9: in redis-stat.c the `vmstat` loop does
not continue to its next iteration after printing a server-reported error
reply — the iteration exits the process with status 1. -/
theorem vmstat_error_exits :
    (vmstatIterStat REDIS_REPLY_ERROR).exits = true := by
  decide

/-- Claim C9 (amended): on a server-reported error reply the asynchronous
load client exits with status 1; among the synchronous stat helpers only
the earliest variant (src/unnamed/part_002) prints the error and lets its
polling loop continue — the redis-stat.c variant prints it and also exits
with status 1. -/
theorem error_reply_policy :
    handleReplyDispatch REDIS_REPLY_ERROR = AsyncAction.exit1
    ∧ vmstatIterEarly REDIS_REPLY_ERROR = ⟨true, false⟩
    ∧ vmstatIterStat REDIS_REPLY_ERROR = ⟨true, true⟩ := by
  decide

/-! ## Claim C8: bounded client pool

Transition system of the hiredis-based scheduler (redis-load.c): states
are observed between event-loop callback executions (a callback runs to
completion before the next state is observed, so no client is mid-way
through its COMPLETING handling at an observed state).  The counters of
the model: `live = listLength(config.clients)`,
`issued = config.issued_requests`, `done = config.done`.  Signal delivery
(the Ctrl-C handler) is outside the event-loop semantics and is not
modelled. -/

structure Engine where
  live : Nat
  issued : Nat
  done : Bool
deriving DecidableEq

/-- The counter bookkeeping of `issueRequest` (redis-load.c lines
263-264): `issued_requests++; if (issued_requests == num_requests)
done = 1;`. -/
def issueCounters (R : Nat) (s : Engine) : Engine :=
  { s with issued := s.issued + 1,
           done := if s.issued + 1 = R then true else s.done }

/-- `createClient` (redis-load.c lines 151-166): connect, append to the
client list, and immediately issue the first request. -/
def createClientStep (R : Nat) (s : Engine) : Engine :=
  issueCounters R { s with live := s.live + 1 }

/-- The loop body of `createMissingClients` (redis-load.c lines 168-172),
with the iteration count made explicit: each successful `createClient`
grows the list by one, so the `while (listLength < num_clients)` loop
runs exactly `N - live` times. -/
def createMissingGo (N R : Nat) : Nat → Engine → Engine
  | 0, s => s
  | k + 1, s =>
      if s.live < N then createMissingGo N R k (createClientStep R s) else s

/-- `createMissingClients` (redis-load.c lines 168-172). -/
def createMissingClients (N R : Nat) (s : Engine) : Engine :=
  createMissingGo N R (N - s.live) s

/-- `clientDisconnected` on a clean disconnect (redis-load.c lines
126-149): remove the client from the list and, if the run is not done,
replenish the pool. -/
def clientDisconnectedStep (N R : Nat) (s : Engine) : Engine :=
  let t : Engine := { s with live := s.live - 1 }
  if t.done then t else createMissingClients N R t

/-- One event-loop callback of the scheduler, as `handleReply` drives it
(redis-load.c lines 199-233): a client with a parsed reply either issues
its next request on the same connection (keepalive, run not done) or
disconnects (run done, or keepalive off), which triggers
`clientDisconnected`. -/
inductive EngStep (N R : Nat) (keepalive : Bool) : Engine → Engine → Prop where
  | completeKeepalive (s : Engine) (h1 : 1 ≤ s.live) (h2 : s.done = false)
      (hc : keepalive = true) :
      EngStep N R keepalive s (issueCounters R s)
  | completeClose (s : Engine) (h1 : 1 ≤ s.live)
      (h2 : s.done = true ∨ keepalive = false) :
      EngStep N R keepalive s (clientDisconnectedStep N R s)

/-- States reachable during a benchmark pass: `main` calls
`createMissingClients` on an empty pool before entering the event loop
(redis-load.c lines 596-599), then callbacks fire. -/
inductive EngReach (N R : Nat) (keepalive : Bool) : Engine → Prop where
  | init : EngReach N R keepalive (createMissingClients N R ⟨0, 0, false⟩)
  | step {s t : Engine} : EngReach N R keepalive s →
      EngStep N R keepalive s t → EngReach N R keepalive t

theorem createClientStep_live (R : Nat) (s : Engine) :
    (createClientStep R s).live = s.live + 1 := rfl

theorem createMissingGo_live (N R : Nat) : ∀ (k : Nat) (s : Engine),
    N ≤ s.live + k → (createMissingGo N R k s).live = max N s.live := by
  intro k
  induction k with
  | zero =>
      intro s h
      simp only [createMissingGo]
      omega
  | succ k ih =>
      intro s h
      simp only [createMissingGo]
      by_cases hl : s.live < N
      · rw [if_pos hl]
        have h' : N ≤ (createClientStep R s).live + k := by
          rw [createClientStep_live]; omega
        rw [ih _ h', createClientStep_live]
        omega
      · rw [if_neg hl]
        omega

theorem createMissingClients_live (N R : Nat) (s : Engine) :
    (createMissingClients N R s).live = max N s.live := by
  apply createMissingGo_live
  omega

theorem issueCounters_doneIff (R : Nat) (s : Engine)
    (h : s.done = true ↔ R ≤ s.issued) :
    (issueCounters R s).done = true ↔ R ≤ (issueCounters R s).issued := by
  simp only [issueCounters]
  by_cases he : s.issued + 1 = R
  · rw [if_pos he]
    simp only [true_iff]
    omega
  · rw [if_neg he, h]
    omega

theorem createClientStep_doneIff (R : Nat) (s : Engine)
    (h : s.done = true ↔ R ≤ s.issued) :
    (createClientStep R s).done = true ↔ R ≤ (createClientStep R s).issued :=
  issueCounters_doneIff R { s with live := s.live + 1 } h

theorem createMissingGo_doneIff (N R : Nat) : ∀ (k : Nat) (s : Engine),
    (s.done = true ↔ R ≤ s.issued) →
    ((createMissingGo N R k s).done = true ↔
      R ≤ (createMissingGo N R k s).issued) := by
  intro k
  induction k with
  | zero =>
      intro s h
      exact h
  | succ k ih =>
      intro s h
      simp only [createMissingGo]
      by_cases hl : s.live < N
      · rw [if_pos hl]
        exact ih _ (createClientStep_doneIff R s h)
      · rw [if_neg hl]
        exact h

/-- The strengthened inductive invariant of the scheduler. -/
def EngInv (N R : Nat) (s : Engine) : Prop :=
  s.live ≤ N ∧ (s.done = false → s.live = N) ∧ (s.done = true ↔ R ≤ s.issued)

theorem engine_inv (N R : Nat) (keepalive : Bool) (hR : 1 ≤ R) :
    ∀ s : Engine, EngReach N R keepalive s → EngInv N R s := by
  intro s hs
  induction hs with
  | init =>
      have hl : (createMissingClients N R (⟨0, 0, false⟩ : Engine)).live = max N 0 :=
        createMissingClients_live N R ⟨0, 0, false⟩
      have hb : ((⟨0, 0, false⟩ : Engine).done = true ↔
          R ≤ (⟨0, 0, false⟩ : Engine).issued) := by
        show false = true ↔ R ≤ 0
        constructor
        · intro h
          exact absurd h (by decide)
        · intro h
          exact absurd h (by omega)
      have hd : ((createMissingClients N R (⟨0, 0, false⟩ : Engine)).done = true ↔
          R ≤ (createMissingClients N R (⟨0, 0, false⟩ : Engine)).issued) :=
        createMissingGo_doneIff N R _ _ hb
      exact ⟨by omega, fun _ => by omega, hd⟩
  | step hpre hstep ih =>
      cases hstep with
      | completeKeepalive h1 h2 hc =>
          exact ⟨ih.1, fun _ => ih.2.1 h2, issueCounters_doneIff R _ ih.2.2⟩
      | completeClose h1 h2 =>
          rename_i s0
          simp only [clientDisconnectedStep]
          cases hdone : s0.done with
          | true =>
              rw [if_pos rfl]
              refine ⟨?_, ?_, ?_⟩
              · show s0.live - 1 ≤ N
                have := ih.1
                omega
              · intro hcon
                exact absurd (show true = false from hcon) (by decide)
              · show true = true ↔ R ≤ s0.issued
                have h3 := ih.2.2
                rw [hdone] at h3
                exact h3
          | false =>
              rw [if_neg (by decide)]
              have hb : (false = true ↔ R ≤ s0.issued) := by
                rw [← hdone]
                exact ih.2.2
              have hl : (createMissingClients N R
                  ({ live := s0.live - 1, issued := s0.issued, done := false } :
                    Engine)).live = max N (s0.live - 1) :=
                createMissingClients_live N R _
              have hd : ((createMissingClients N R
                  ({ live := s0.live - 1, issued := s0.issued, done := false } :
                    Engine)).done = true ↔
                  R ≤ (createMissingClients N R
                    ({ live := s0.live - 1, issued := s0.issued, done := false } :
                      Engine)).issued) :=
                createMissingGo_doneIff N R _ _ hb
              have hle := ih.1
              exact ⟨by omega, fun _ => by omega, hd⟩

/-- Claim C8: at every state observed between event-loop callbacks the
number of live clients is at most the configured pool size `N`, and
whenever `issued < R` (so no client is in its COMPLETING handling and the
run is not done) the pool is full: `live = N`. -/
theorem pool_bounded (N R : Nat) (keepalive : Bool) (hR : 1 ≤ R)
    (s : Engine) (hs : EngReach N R keepalive s) :
    s.live ≤ N ∧ (s.issued < R → s.live = N) := by
  have hinv := engine_inv N R keepalive hR s hs
  refine ⟨hinv.1, ?_⟩
  intro hlt
  apply hinv.2.1
  cases hdone : s.done with
  | false => rfl
  | true => exact absurd (hinv.2.2.1 hdone) (by omega)

/-- Witness for C8 at the initial state of a concrete configuration. -/
theorem pool_bounded_w :
    (1 ≤ 3)
    ∧ ((createMissingClients 2 3 ⟨0, 0, false⟩).live ≤ 2
       ∧ ((createMissingClients 2 3 ⟨0, 0, false⟩).issued < 3 →
           (createMissingClients 2 3 ⟨0, 0, false⟩).live = 2)) :=
  ⟨by omega, pool_bounded 2 3 true (by omega) _ EngReach.init⟩
